import Mathlib

/-!
Verification of the Jira/SonarQube fetch-and-plot pipeline
(`jira/jira_fetch.py`, `jira/jira_plot.py`, `sonarqube/sonarqube_plot.py`).

The Python source is shallowly embedded: JSON payloads become an inductive
`Json` type, fallible Python operations (attribute errors, unbound locals,
`int()` failures, unpacking failures) return `Except PyErr`, dates become a
`Date` structure with the `dateutil.relativedelta` month arithmetic spelled
out, and the pandas/numpy aggregation steps become explicit list pipelines.
-/

/-- Python exception kinds that the embedded fragments can raise. -/
inductive PyErr where
  | attributeError
  | typeError
  | nameError
  | valueError
  deriving DecidableEq, Repr

/-- JSON values as delivered by `response.json()` / `json.load`.  Numeric
fields used by the pipeline (ids, second counts) are integers, so numbers
are embedded as `Int`. -/
inductive Json where
  | null
  | bool (b : Bool)
  | num (n : Int)
  | str (s : String)
  | arr (elems : List Json)
  | obj (fields : List (String × Json))

namespace Json

/-- Python `d.get(key, default)`: on a dict returns the binding or the
default, on any non-dict value raises `AttributeError`. -/
def getD (j : Json) (k : String) (dflt : Json) : Except PyErr Json :=
  match j with
  | .obj fs => .ok ((fs.lookup k).getD dflt)
  | _ => .error .attributeError

/-- Python `d.get(key)` (default `None`). -/
def get (j : Json) (k : String) : Except PyErr Json :=
  j.getD k .null

/-- Python `for x in j`: the payload lists iterated by the code are JSON
arrays; iterating anything else is modelled as `TypeError`. -/
def asList (j : Json) : Except PyErr (List Json) :=
  match j with
  | .arr xs => .ok xs
  | _ => .error .typeError

/-- Python truthiness (`if timetracking:`). -/
def truthy : Json → Bool
  | .null => false
  | .bool b => b
  | .num n => n != 0
  | .str s => s != ""
  | .arr xs => !xs.isEmpty
  | .obj fs => !fs.isEmpty

end Json

/-- One flat record built by `extract_relevant_info` for a single work-log
entry.  The two estimate keys are only inserted by the later
`info.update(...)` call, so their presence is tracked with `Option`
(`none` = key absent from the dict). -/
structure RecordInfo where
  user_name : Json
  user_email : Json
  issue_key : Json
  issue_id : Json
  worklog_id : Json
  time_spent_seconds : Json
  worklog_start : Json
  original_estimate_seconds : Option Json := none
  remaining_estimate_seconds : Option Json := none

/-- The dict literal built for one work log inside the inner loop of
`extract_relevant_info` (jira_fetch.py lines 51-59), with Python's
top-to-bottom evaluation order of the values. -/
def mkWorklogInfo (issue worklog : Json) : Except PyErr RecordInfo := do
  let author ← worklog.getD "author" (.obj [])
  let user_name ← author.get "displayName"
  let author2 ← worklog.getD "author" (.obj [])
  let user_email ← author2.get "emailAddress"
  let issue_key ← issue.get "key"
  let issue_id ← issue.get "id"
  let worklog_id ← worklog.get "id"
  let tss ← worklog.get "timeSpentSeconds"
  let ws ← worklog.get "started"
  pure { user_name := user_name, user_email := user_email,
         issue_key := issue_key, issue_id := issue_id,
         worklog_id := worklog_id, time_spent_seconds := tss,
         worklog_start := ws }

/-- The `info.update({...})` call (jira_fetch.py lines 63-67): inserts the
two estimate keys and overwrites `time_spent_seconds` with the
timetracking aggregate. -/
def updateEstimates (timetracking : Json) (r : RecordInfo) :
    Except PyErr RecordInfo := do
  let oes ← timetracking.get "originalEstimateSeconds"
  let res ← timetracking.get "remainingEstimateSeconds"
  let tss ← timetracking.get "timeSpentSeconds"
  pure { r with original_estimate_seconds := some oes,
                remaining_estimate_seconds := some res,
                time_spent_seconds := tss }

/-- The `acc`-independent part of one iteration of the outer
`for issue in data.get('issues', [])` loop: navigate to the work-log list,
build one record per work log, and fetch the timetracking value.  (In the
source the `timetracking` lookup happens textually after the appends; all
of these steps are pure, so gathering them first is an equivalent
factoring.) -/
def issueParts (issue : Json) :
    Except PyErr (List RecordInfo × Json) := do
  let fields ← issue.getD "fields" (.obj [])
  let worklogObj ← fields.getD "worklog" (.obj [])
  let worklogsJ ← worklogObj.getD "worklogs" (.arr [])
  let worklogs ← worklogsJ.asList
  let newRecs ← worklogs.mapM (mkWorklogInfo issue)
  let timetracking ← fields.getD "timetracking" (.obj [])
  pure (newRecs, timetracking)

/-- One iteration of the outer loop.  `acc` is `relevant_info` so far.
The Python local `info` aliases the most recently appended dict — across
issues, because `info` is a plain function local that survives loop
iterations.  Hence `info.update` mutates the last element of
`relevant_info`; when nothing has ever been appended, `info` is unbound
and Python raises `NameError` (`UnboundLocalError`). -/
def processIssue (acc : List RecordInfo) (issue : Json) :
    Except PyErr (List RecordInfo) :=
  match issueParts issue with
  | .error e => .error e
  | .ok (newRecs, timetracking) =>
      if timetracking.truthy then
        match (acc ++ newRecs).getLast? with
        | none => .error .nameError
        | some last =>
            match updateEstimates timetracking last with
            | .error e => .error e
            | .ok upd => .ok ((acc ++ newRecs).dropLast ++ [upd])
      else .ok (acc ++ newRecs)

/-- `extract_relevant_info(data)` (jira_fetch.py lines 47-69). -/
def extract_relevant_info (data : Json) : Except PyErr (List RecordInfo) := do
  let issuesJ ← data.getD "issues" (.arr [])
  let issues ← issuesJ.asList
  issues.foldlM processIssue []

/-- Records produced by processing a single issue from an empty state
(the per-issue contribution, free of cross-issue aliasing). -/
def issueRecords (issue : Json) : List RecordInfo :=
  ((processIssue [] issue).toOption).getD []

/- Payload builders used to state theorems about concrete payload shapes. -/

/-- An issue object with the given key, id, work-log list and timetracking
value. -/
def mkIssue (k i : Json) (worklogs : List Json) (timetracking : Json) : Json :=
  .obj [("key", k), ("id", i),
        ("fields", .obj [("worklog", .obj [("worklogs", .arr worklogs)]),
                         ("timetracking", timetracking)])]

/-- A search payload with the given issue list. -/
def mkPayload (issues : List Json) : Json :=
  .obj [("issues", .arr issues)]

/-- A work log is well shaped when it is an object whose `author` field, if
present, is itself an object. -/
def WfWorklog (w : Json) : Prop :=
  ∃ fs : List (String × Json), w = .obj fs ∧
    ∀ a, fs.lookup "author" = some a → ∃ afs, a = Json.obj afs

/-!
## Date windows (`fetch_data_for_period`, jira_fetch.py lines 97-103)

Dates are embedded as `{year, month, day}` with `month ∈ [1,12]` and
`day ∈ [1, daysInMonth]` for valid dates.  `dateutil.relativedelta`
month subtraction shifts the linear month index and clamps the day to the
target month's length; `days=1` subtraction is a plain previous-day step
applied after the month shift.
-/

structure Date where
  year : Nat
  month : Nat
  day : Nat
  deriving DecidableEq, Repr

/-- Gregorian leap-year rule. -/
def isLeap (y : Nat) : Bool :=
  (y % 4 == 0 && y % 100 != 0) || y % 400 == 0

/-- Number of days in a month. -/
def daysInMonth (y m : Nat) : Nat :=
  if m = 2 then (if isLeap y then 29 else 28)
  else if m = 4 ∨ m = 6 ∨ m = 9 ∨ m = 11 then 30
  else 31

/-- Linear month index: months elapsed since year 0, month 1. -/
def monthIdx (d : Date) : Nat :=
  12 * d.year + (d.month - 1)

/-- `today - relativedelta(months=k)`: shift the month index down by `k`,
clamping the day to the length of the target month (dateutil semantics). -/
def subMonths (d : Date) (k : Nat) : Date :=
  let idx := monthIdx d - k
  let y := idx / 12
  let m := idx % 12 + 1
  { year := y, month := m, day := min d.day (daysInMonth y m) }

/-- `.replace(day=1)`. -/
def firstOfMonth (d : Date) : Date :=
  { d with day := 1 }

/-- The previous calendar day (`- relativedelta(days=1)`). -/
def prevDay (d : Date) : Date :=
  if d.day > 1 then { d with day := d.day - 1 }
  else if d.month > 1 then
    { year := d.year, month := d.month - 1,
      day := daysInMonth d.year (d.month - 1) }
  else { year := d.year - 1, month := 12, day := 31 }

/-- The next calendar day. -/
def nextDay (d : Date) : Date :=
  if d.day < daysInMonth d.year d.month then { d with day := d.day + 1 }
  else if d.month < 12 then { year := d.year, month := d.month + 1, day := 1 }
  else { year := d.year + 1, month := 1, day := 1 }

/-- Linear key on dates; for valid dates (`day ≤ 31`) it respects
chronological order. -/
def dateVal (d : Date) : Nat :=
  32 * monthIdx d + d.day

/-- One fetch window, named after `start_date` / `end_date` in the code. -/
structure Window where
  start_date : Date
  end_date : Date
  deriving DecidableEq, Repr

/-- The window built in iteration `i` of `fetch_data_for_period`:
`start_date = (today - relativedelta(months=i)).replace(day=1)` and
`end_date = today - relativedelta(months=i-1, days=1)` for `i ≠ 0`,
`end_date = today` for `i == 0`. -/
def windowAt (today : Date) (i : Nat) : Window :=
  { start_date := firstOfMonth (subMonths today i)
  , end_date := if i = 0 then today else prevDay (subMonths today (i - 1)) }

/-- Python `range(start, stop, -1)` unfolded with explicit fuel
(`(start - stop).toNat` is exactly the number of elements). -/
def pyRangeDownAux : Nat → Int → Int → List Int
  | 0, _, _ => []
  | fuel + 1, start, stop =>
      if stop < start then start :: pyRangeDownAux fuel (start - 1) stop
      else []

/-- Python `range(start, stop, -1)`. -/
def pyRangeDown (start stop : Int) : List Int :=
  pyRangeDownAux (start - stop).toNat start stop

/-- The sequence of windows produced by
`for i in range(months_back, -1, -1)` in `fetch_data_for_period`
(jira_fetch.py lines 97-103).  `months_back` is the raw CLI integer, so it
is an `Int`; every `i` the loop produces is nonnegative. -/
def fetch_data_for_period_windows (months_back : Int) (today : Date) :
    List Window :=
  (pyRangeDown months_back (-1)).map (fun i => windowAt today i.toNat)

/-- The guard in `main` (jira_fetch.py lines 117-119): values `< 1` are
rejected before `fetch_data_for_period` is ever called. -/
def mainRejectsMonths (months_back : Int) : Bool :=
  months_back < 1

/-!
## Effort parsing (`convert_effort_to_minutes`, sonarqube_plot.py lines 35-59)

Python string operations are embedded over `List Char`.  `str.replace`
scans left to right, replacing non-overlapping occurrences; `str.split()`
splits on runs of whitespace; `int(s)` accepts an optional sign followed
by decimal digits (the model omits Python's underscore separators and
non-ASCII digits, which no effort string uses).
-/

/-- Python `str.replace` on character lists, with fuel (`s.length` always
suffices because every step consumes at least one character when the
pattern is nonempty). -/
def replaceAux (pat rep : List Char) : Nat → List Char → List Char
  | 0, s => s
  | _ + 1, [] => []
  | fuel + 1, c :: cs =>
      if pat ≠ [] ∧ pat.isPrefixOf (c :: cs) then
        rep ++ replaceAux pat rep fuel ((c :: cs).drop pat.length)
      else
        c :: replaceAux pat rep fuel cs

/-- Python `s.replace(pat, rep)`. -/
def pyReplace (s pat rep : String) : String :=
  ⟨replaceAux pat.toList rep.toList s.toList.length s.toList⟩

/-- Python `str.split()` helper: `acc` is the reversed current token. -/
def splitWsAux : List Char → List Char → List String
  | [], acc => if acc.isEmpty then [] else [⟨acc.reverse⟩]
  | c :: cs, acc =>
      if c.isWhitespace then
        if acc.isEmpty then splitWsAux cs []
        else (⟨acc.reverse⟩ : String) :: splitWsAux cs []
      else splitWsAux cs (c :: acc)

/-- Python `s.split()` (no argument): split on whitespace runs, no empty
tokens. -/
def pySplit (s : String) : List String :=
  splitWsAux s.toList []

/-- Decimal digit run to a number; `none` unless the run is nonempty and
all digits. -/
def digitsToNat : List Char → Option Nat
  | [] => none
  | cs =>
    if cs.all (·.isDigit) then
      some (cs.foldl (fun n c => 10 * n + (c.toNat - 48)) 0)
    else none

/-- Python `int(s)` on a whitespace-free token: optional sign then decimal
digits, `none` for `ValueError`. -/
def pyInt (cs : List Char) : Option Int :=
  match cs with
  | [] => none
  | c :: rest =>
      if c = '-' then
        match digitsToNat rest with
        | some n => some (-(n : Int))
        | none => none
      else if c = '+' then
        match digitsToNat rest with
        | some n => some ((n : Int))
        | none => none
      else
        match digitsToNat cs with
        | some n => some ((n : Int))
        | none => none

/-- Python's `sub in s` substring test. -/
def hasInfix (pat : List Char) : List Char → Bool
  | [] => pat.isEmpty
  | c :: cs => pat.isPrefixOf (c :: cs) || hasInfix pat cs

/-- Contribution of one split token to the total: the `if 'h' in part` /
`elif 'min' in part` branches, a failing `int()` contributing 0 via
`continue`. -/
def tokenMinutes (part : String) : Int :=
  if hasInfix "h".toList part.toList then
    match pyInt (pyReplace part "h" "").toList with
    | some hours => hours * 60
    | none => 0
  else if hasInfix "min".toList part.toList then
    match pyInt (pyReplace part "min" "").toList with
    | some minutes => minutes
    | none => 0
  else 0

/-- `convert_effort_to_minutes(effort_str)` (sonarqube_plot.py lines
35-59): normalize with the three `replace` calls, split on whitespace and
sum the per-token contributions. -/
def convert_effort_to_minutes (effort_str : String) : Int :=
  let normalized :=
    pyReplace (pyReplace (pyReplace effort_str "h" "h ") "min" " min") "  " " "
  ((pySplit normalized).map tokenMinutes).sum

/-!
## `generate_email` (jira_fetch.py lines 42-45)
-/

/-- Python `str.lower()` restricted to ASCII (character-wise lowering). -/
def pyLower (s : String) : String :=
  ⟨s.toList.map Char.toLower⟩

/-- `generate_email(name, ext)`: `firstname, surname = name.split()` raises
`ValueError` unless the split has exactly two parts; otherwise the address
is assembled from the lowercased parts. -/
def generate_email (name : String) (ext : Bool) : Except PyErr String :=
  match pySplit name with
  | [firstname, surname] =>
      .ok (pyLower firstname ++ "." ++ pyLower surname ++
           (if ext then "@ext.ubp.ch" else "@ubp.ch"))
  | _ => .error .valueError

/-!
## Aggregation (`calculate_average_time`, jira_plot.py lines 53-64, and the
group-sum of `plot_total_time_spent_per_tester`, lines 79-86)

A pandas numeric cell after `pd.to_numeric(..., errors='coerce')` is
either a finite value, `NaN`, or an infinity.  The pipeline then runs
`df.replace([inf, -inf], nan)` and `df.dropna(subset=['time_spent_seconds'])`
(both in place, so later plots see the cleaned frame): the net effect is
that a row survives iff its duration coerces to a finite number.  The
numeric-string model covers integer literals and the `NaN`/`Infinity`
spellings (fractional literals are omitted; no claim depends on them).
-/

inductive PdNum where
  | fin (q : ℚ)
  | nan
  | pinf
  | ninf
  deriving DecidableEq, Repr

def PdNum.isFinite : PdNum → Bool
  | .fin _ => true
  | _ => false

/-- `pd.to_numeric(errors='coerce')` on one JSON-loaded cell. -/
def toNumericCoerce (v : Json) : PdNum :=
  match v with
  | .num n => .fin (n : ℚ)
  | .bool b => .fin (if b then 1 else 0)
  | .null => .nan
  | .str s =>
      if s = "NaN" ∨ s = "nan" then .nan
      else if s = "Infinity" ∨ s = "inf" ∨ s = "+Infinity" ∨ s = "+inf" then
        .pinf
      else if s = "-Infinity" ∨ s = "-inf" then .ninf
      else
        match pyInt s.toList with
        | some n => .fin (n : ℚ)
        | none => .nan
  | _ => .nan

/-- One row of the work-log DataFrame (the columns
`calculate_average_time` reads). -/
structure JiraRow where
  user_name : String
  worklog_start : String
  time_spent_seconds : Json

/-- Month bucket: `pd.to_datetime(errors='coerce')` then
`.dt.to_period('M').astype(str)`, i.e. the `YYYY-MM` prefix of a parseable
ISO timestamp and the string `"NaT"` otherwise (the UTC normalization
performed by `tz_convert(None)` is not modelled; no claim depends on it). -/
def monthOf (s : String) : String :=
  match s.toList with
  | y1 :: y2 :: y3 :: y4 :: '-' :: m1 :: m2 :: _ =>
      if y1.isDigit && y2.isDigit && y3.isDigit && y4.isDigit &&
         m1.isDigit && m2.isDigit then
        ⟨[y1, y2, y3, y4, '-', m1, m2]⟩
      else "NaT"
  | _ => "NaT"

/-- Rows surviving coercion + `replace([inf,-inf], nan)` + `dropna`,
paired with their finite duration. -/
def keptRows (rows : List JiraRow) : List (JiraRow × ℚ) :=
  rows.filterMap fun r =>
    match toNumericCoerce r.time_spent_seconds with
    | .fin q => some (r, q)
    | _ => none

/-- Group key of a row: `(user_name, month)`. -/
def rowKey (r : JiraRow) : String × String :=
  (r.user_name, monthOf r.worklog_start)

/-- Lexicographic order on group keys (pandas `groupby` sorts keys). -/
def keyLe (a b : String × String) : Prop :=
  a.1 < b.1 ∨ (a.1 = b.1 ∧ a.2 ≤ b.2)

instance : DecidableRel keyLe := fun a b => by
  unfold keyLe; infer_instance

/-- The sorted list of distinct group keys of the cleaned frame. -/
def groupKeysOfKept (kept : List (JiraRow × ℚ)) : List (String × String) :=
  ((kept.map fun rq => rowKey rq.1).dedup).insertionSort keyLe

/-- The finite durations falling into one group. -/
def groupVals (kept : List (JiraRow × ℚ)) (k : String × String) : List ℚ :=
  kept.filterMap fun rq => if rowKey rq.1 = k then some rq.2 else none

/-- `groupby(['user_name','month'])['time_spent_seconds'].mean()` over the
cleaned frame. -/
def avgOfKept (kept : List (JiraRow × ℚ)) : List (String × String × ℚ) :=
  (groupKeysOfKept kept).map fun k =>
    (k.1, k.2, (groupVals kept k).sum / (groupVals kept k).length)

/-- `calculate_average_time(df)` (jira_plot.py lines 53-64), returning the
per-(user, month) mean of `time_spent_seconds`. -/
def calculate_average_time (rows : List JiraRow) : List (String × String × ℚ) :=
  avgOfKept (keptRows rows)

/-- The per-(user, month) `sum` of `time_spent_hours` computed by
`plot_total_time_spent_per_tester` (jira_plot.py lines 79-86) on the frame
already cleaned in place by `calculate_average_time`. -/
def total_time_per_tester (rows : List JiraRow) : List (String × String × ℚ) :=
  (groupKeysOfKept (keptRows rows)).map fun k =>
    (k.1, k.2, ((groupVals (keptRows rows) k).map fun q => q / 3600).sum)

/-!
## Cumulative effort (`plot_cumulative_effort_over_time`,
sonarqube_plot.py lines 116-136)

Issues are kept when both `creationDate` and `effort` are present; the
parsed creation datetimes are embedded as integers preserving
chronological order.  `np.argsort` on the dates followed by indexing both
arrays is reordering the (date, effort) pairs by date; it is modelled by a
stable insertion sort.  NumPy's default `argsort` does not promise any
particular order among tied dates, so every proved statement below is
restricted to pairwise-distinct dates, where the modelling choice is
immaterial. -/

structure SQIssue where
  creationDate : Option Int
  effort : Option String
  deriving DecidableEq, Repr

/-- The (parsed date, parsed effort) pairs of the issues having both
fields, in input order. -/
def cumulativePoints (issues : List SQIssue) : List (Int × Int) :=
  issues.filterMap fun iss =>
    match iss.creationDate, iss.effort with
    | some d, some e => some (d, convert_effort_to_minutes e)
    | _, _ => none

/-- Comparison by date used for the argsort. -/
def dateLe (a b : Int × Int) : Prop :=
  a.1 ≤ b.1

instance : DecidableRel dateLe := fun a b => by
  unfold dateLe; infer_instance

/-- `np.cumsum` with running accumulator. -/
def cumsumFrom (acc : Int) : List Int → List Int
  | [] => []
  | x :: xs => (acc + x) :: cumsumFrom (acc + x) xs

/-- The (date, cumulative effort) series plotted by
`plot_cumulative_effort_over_time` for one project. -/
def cumulative_effort_series (issues : List SQIssue) : List (Int × Int) :=
  let sorted := (cumulativePoints issues).insertionSort dateLe
  (sorted.map Prod.fst).zip (cumsumFrom 0 (sorted.map Prod.snd))

/-!
## Character-propagation lemmas for the effort parser
-/

/-- Every character of a `replaceAux` result comes from the input or from
the replacement string. -/
theorem mem_replaceAux (pat rep : List Char) :
    ∀ (fuel : Nat) (s : List Char) (c : Char),
      c ∈ replaceAux pat rep fuel s → c ∈ s ∨ c ∈ rep := by
  intro fuel
  induction fuel with
  | zero => intro s c h; exact .inl h
  | succ n ih =>
    intro s c h
    match s with
    | [] => simp [replaceAux] at h
    | x :: xs =>
      rw [replaceAux] at h
      by_cases hc : pat ≠ [] ∧ pat.isPrefixOf (x :: xs)
      · rw [if_pos hc] at h
        rcases List.mem_append.mp h with h1 | h2
        · exact .inr h1
        · rcases ih _ _ h2 with h3 | h4
          · exact .inl (List.mem_of_mem_drop h3)
          · exact .inr h4
      · rw [if_neg hc] at h
        rcases List.mem_cons.mp h with h1 | h2
        · exact .inl (h1 ▸ List.mem_cons_self x xs)
        · rcases ih _ _ h2 with h3 | h4
          · exact .inl (List.mem_cons_of_mem x h3)
          · exact .inr h4

/-- Character provenance for `pyReplace`. -/
theorem mem_pyReplace (s pat rep : String) (c : Char)
    (h : c ∈ (pyReplace s pat rep).toList) : c ∈ s.toList ∨ c ∈ rep.toList :=
  mem_replaceAux pat.toList rep.toList s.toList.length s.toList c h

/-- Every character of a token produced by `splitWsAux` comes from the
remaining input or the pending accumulator. -/
theorem mem_splitWsAux :
    ∀ (s acc : List Char) (p : String), p ∈ splitWsAux s acc →
      ∀ c ∈ p.toList, c ∈ s ∨ c ∈ acc := by
  intro s
  induction s with
  | nil =>
    intro acc p hp c hc
    rw [splitWsAux] at hp
    by_cases ha : acc.isEmpty
    · rw [if_pos ha] at hp; simp at hp
    · rw [if_neg ha] at hp
      simp only [List.mem_singleton] at hp
      subst hp
      exact .inr (List.mem_reverse.mp hc)
  | cons x xs ih =>
    intro acc p hp c hc
    rw [splitWsAux] at hp
    by_cases hw : x.isWhitespace
    · rw [if_pos hw] at hp
      by_cases ha : acc.isEmpty
      · rw [if_pos ha] at hp
        rcases ih [] p hp c hc with h1 | h2
        · exact .inl (List.mem_cons_of_mem x h1)
        · simp at h2
      · rw [if_neg ha] at hp
        rcases List.mem_cons.mp hp with h1 | h2
        · subst h1
          exact .inr (List.mem_reverse.mp hc)
        · rcases ih [] p h2 c hc with h1 | h2
          · exact .inl (List.mem_cons_of_mem x h1)
          · simp at h2
    · rw [if_neg hw] at hp
      rcases ih (x :: acc) p hp c hc with h1 | h2
      · exact .inl (List.mem_cons_of_mem x h1)
      · rcases List.mem_cons.mp h2 with h3 | h4
        · exact .inl (h3 ▸ List.mem_cons_self x xs)
        · exact .inr h4

/-- Character provenance for `pySplit`. -/
theorem mem_pySplit (s p : String) (hp : p ∈ pySplit s) (c : Char)
    (hc : c ∈ p.toList) : c ∈ s.toList := by
  rcases mem_splitWsAux s.toList [] p hp c hc with h1 | h2
  · exact h1
  · simp at h2

/-- Without a leading minus sign, `int()` never returns a negative. -/
theorem pyInt_nonneg (cs : List Char) (h : '-' ∉ cs) (n : Int)
    (hn : pyInt cs = some n) : 0 ≤ n := by
  match cs with
  | [] => simp [pyInt] at hn
  | c :: rest =>
    rw [pyInt] at hn
    by_cases hminus : c = '-'
    · exact absurd (hminus ▸ List.mem_cons_self c rest) h
    · rw [if_neg hminus] at hn
      by_cases hplus : c = '+'
      · rw [if_pos hplus] at hn
        rcases hdig : digitsToNat rest with _ | k
        · rw [hdig] at hn; exact absurd hn (by simp)
        · rw [hdig] at hn
          have hkn : ((k : Int)) = n := by
            simpa using hn
          omega
      · rw [if_neg hplus] at hn
        rcases hdig : digitsToNat (c :: rest) with _ | k
        · rw [hdig] at hn; exact absurd hn (by simp)
        · rw [hdig] at hn
          have hkn : ((k : Int)) = n := by
            simpa using hn
          omega

/-- Without a minus sign in the token, its minute contribution is
nonnegative. -/
theorem tokenMinutes_nonneg (part : String) (h : '-' ∉ part.toList) :
    0 ≤ tokenMinutes part := by
  have hrep : ∀ pat : String, '-' ∉ (pyReplace part pat "").toList := by
    intro pat hmem
    rcases mem_pyReplace part pat "" '-' hmem with h1 | h2
    · exact h h1
    · simp at h2
  unfold tokenMinutes
  by_cases hh : hasInfix "h".toList part.toList
  · rw [if_pos hh]
    rcases hv : pyInt (pyReplace part "h" "").toList with _ | hours
    · simp [hv]
    · simp only [hv]
      exact mul_nonneg (pyInt_nonneg _ (hrep "h") hours hv) (by norm_num)
  · rw [if_neg hh]
    by_cases hm : hasInfix "min".toList part.toList
    · rw [if_pos hm]
      rcases hv : pyInt (pyReplace part "min" "").toList with _ | minutes
      · simp [hv]
      · simp only [hv]
        exact pyInt_nonneg _ (hrep "min") minutes hv
    · rw [if_neg hm]

/-!
## Claim C5 — effort parser examples
-/

/-- C5: evaluation of `convert_effort_to_minutes` at the spec's example
inputs.  The code disagrees with the claimed values on every input whose
minutes carry a unit: `replace('min', ' min')` detaches the digits from
the `min` marker, so the resulting digit-only token matches neither
branch and the lone `min` token fails `int('')`.  Hence
`"2h 15min" ↦ 120` (claimed 135), `"90min" ↦ 0` (claimed 90),
`"1h 30min" ↦ 60` (claimed 90); the hour-only and garbage examples agree
with the claim. -/
theorem c5_effort_examples_evaluated :
    convert_effort_to_minutes "2h 15min" = 120 ∧
    convert_effort_to_minutes "" = 0 ∧
    convert_effort_to_minutes "halfh" = 0 ∧
    convert_effort_to_minutes "3h" = 180 ∧
    convert_effort_to_minutes "90min" = 0 ∧
    convert_effort_to_minutes "1h 30min" = 60 ∧
    convert_effort_to_minutes "garbage" = 0 := by
  refine ⟨?_, ?_, ?_, ?_, ?_, ?_, ?_⟩ <;> rfl

/-!
## Claim C6 — sign of the parsed total
-/

/-- C6 counterexample: `int("-5")` succeeds in Python, so the effort
string `"-5h"` parses to `-300`, refuting `parse(text) ≥ 0` for every
input string. -/
theorem c6_counterexample :
    convert_effort_to_minutes "-5h" = -300 ∧
    ¬ (0 ≤ convert_effort_to_minutes "-5h") := by
  constructor
  · rfl
  · intro h
    have : convert_effort_to_minutes "-5h" = -300 := rfl
    omega

/-- C6 (amended): for every input string containing no minus sign the
result of `convert_effort_to_minutes` is a nonnegative integer; negative
totals require a `-` in the input (which then reaches `int()`). -/
theorem c6_amended_nonneg (s : String) (h : '-' ∉ s.toList) :
    0 ≤ convert_effort_to_minutes s := by
  unfold convert_effort_to_minutes
  apply List.sum_nonneg
  intro x hx
  rcases List.mem_map.mp hx with ⟨part, hpart, rfl⟩
  apply tokenMinutes_nonneg
  intro hc
  have hc2 := mem_pySplit _ _ hpart _ hc
  rcases mem_pyReplace _ _ _ _ hc2 with h1 | h2
  · rcases mem_pyReplace _ _ _ _ h1 with h3 | h4
    · rcases mem_pyReplace _ _ _ _ h3 with h5 | h6
      · exact h h5
      · exact absurd h6 (by decide)
    · exact absurd h4 (by decide)
  · exact absurd h2 (by decide)

/-- C6 witness: the amended theorem applied at the concrete minus-free
input `"3h"`. -/
theorem c6_amended_witness : 0 ≤ convert_effort_to_minutes "3h" :=
  c6_amended_nonneg "3h" (by decide)

/-!
## Claim C7 — negative `months_back`
-/

/-- C7 counterexample: at `months_back = -3` the loop
`range(months_back, -1, -1)` is empty, so `fetch_data_for_period`
silently succeeds with zero windows — no `InvalidArgument` failure exists
anywhere in that path, refuting the claim that window generation fails
for negative inputs. -/
theorem c7_counterexample :
    fetch_data_for_period_windows (-3) ⟨2024, 5, 20⟩ = [] := rfl

/-- C7 (amended): for every `months_back < 0` the window sequence is
empty — the generator silently succeeds rather than failing — and the
separate caller policy in `main` rejects every such value (it rejects all
values `< 1`) before any query would be issued. -/
theorem c7_amended_silent_empty (mb : Int) (today : Date) (h : mb < 0) :
    fetch_data_for_period_windows mb today = [] ∧
    mainRejectsMonths mb = true := by
  constructor
  · unfold fetch_data_for_period_windows pyRangeDown
    have hz : (mb - (-1)).toNat = 0 := Int.toNat_of_nonpos (by omega)
    rw [hz]
    rfl
  · simp only [mainRejectsMonths, decide_eq_true_eq]
    omega

/-- C7 witness: the amended theorem applied at `months_back = -2`. -/
theorem c7_amended_witness :
    fetch_data_for_period_windows (-2) ⟨2024, 1, 1⟩ = [] ∧
    mainRejectsMonths (-2) = true :=
  c7_amended_silent_empty (-2) ⟨2024, 1, 1⟩ (by decide)

/-!
## Claim C10 — `generate_email`
-/

/-- C10: `generate_email` succeeds exactly on names splitting into two
whitespace-separated parts, returning
`lower(first) ++ "." ++ lower(surname)` followed by `"@ext.ubp.ch"` when
`ext` is set and `"@ubp.ch"` otherwise; any other number of parts raises
`ValueError` (from the two-target unpacking of `name.split()`). -/
theorem c10_generate_email_spec (name : String) (ext : Bool) :
    (∀ a b, pySplit name = [a, b] →
        generate_email name ext =
          .ok (pyLower a ++ "." ++ pyLower b ++
               (if ext then "@ext.ubp.ch" else "@ubp.ch"))) ∧
    ((pySplit name).length ≠ 2 →
        generate_email name ext = .error .valueError) := by
  constructor
  · intro a b hab
    unfold generate_email
    rw [hab]
  · intro hlen
    unfold generate_email
    rcases hs : pySplit name with _ | ⟨a, _ | ⟨b, _ | ⟨c, rest⟩⟩⟩
    · rfl
    · rfl
    · exact absurd (by rw [hs]; rfl) hlen
    · rfl

/-- C10 witness: concrete success and failure instances obtained from the
theorem. -/
theorem c10_witness :
    generate_email "John Doe" true = .ok "john.doe@ext.ubp.ch" ∧
    generate_email "Cher" false = .error .valueError := by
  constructor
  · exact ((c10_generate_email_spec "John Doe" true).1 "John" "Doe"
      (by rfl)).trans (congrArg Except.ok (by rfl))
  · exact (c10_generate_email_spec "Cher" false).2 (by decide)

/-!
## Claims C2, C3, C4 — `extract_relevant_info`
-/

theorem exceptBindOk {α β ε : Type} (x : α) (f : α → Except ε β) :
    ((Except.ok x : Except ε α) >>= f) = f x := rfl

theorem exceptBindErr {α β ε : Type} (e : ε) (f : α → Except ε β) :
    ((Except.error e : Except ε α) >>= f) = .error e := rfl

theorem exceptPureEq {α ε : Type} (x : α) :
    (pure x : Except ε α) = .ok x := rfl

/-- Building the record for one well-shaped work log of an object issue
always succeeds, and the built record carries no estimate keys. -/
theorem mkWorklogInfo_ok (ifs : List (String × Json)) (w : Json)
    (hw : WfWorklog w) :
    ∃ r : RecordInfo, mkWorklogInfo (Json.obj ifs) w = .ok r ∧
      r.original_estimate_seconds = none ∧
      r.remaining_estimate_seconds = none := by
  obtain ⟨fs, rfl, hauth⟩ := hw
  rcases hae : fs.lookup "author" with _ | a
  · refine ⟨{ user_name := .null, user_email := .null,
              issue_key := (ifs.lookup "key").getD .null,
              issue_id := (ifs.lookup "id").getD .null,
              worklog_id := (fs.lookup "id").getD .null,
              time_spent_seconds := (fs.lookup "timeSpentSeconds").getD .null,
              worklog_start := (fs.lookup "started").getD .null }, ?_, rfl, rfl⟩
    simp [mkWorklogInfo, Json.get, Json.getD, hae, exceptBindOk, exceptPureEq]
  · obtain ⟨afs, rfl⟩ := hauth a hae
    refine ⟨{ user_name := (afs.lookup "displayName").getD .null,
              user_email := (afs.lookup "emailAddress").getD .null,
              issue_key := (ifs.lookup "key").getD .null,
              issue_id := (ifs.lookup "id").getD .null,
              worklog_id := (fs.lookup "id").getD .null,
              time_spent_seconds := (fs.lookup "timeSpentSeconds").getD .null,
              worklog_start := (fs.lookup "started").getD .null }, ?_, rfl, rfl⟩
    simp [mkWorklogInfo, Json.get, Json.getD, hae, exceptBindOk, exceptPureEq]

/-- When processing an issue from the empty state succeeds, processing the
same issue with any earlier accumulator appends exactly the same records
and touches none of the earlier ones. -/
theorem processIssue_localize (issue : Json) (recs : List RecordInfo)
    (h : processIssue [] issue = .ok recs) (acc : List RecordInfo) :
    processIssue acc issue = .ok (acc ++ recs) := by
  simp only [processIssue] at h ⊢
  rcases hp : issueParts issue with e | ⟨newRecs, tt⟩
  · rw [hp] at h; simp at h
  · rw [hp] at h
    dsimp only at h ⊢
    simp only [List.nil_append] at h
    by_cases htr : tt.truthy = true
    · rw [if_pos htr] at h ⊢
      rcases hl : newRecs.getLast? with _ | last
      · rw [hl] at h; simp at h
      · rw [hl] at h
        dsimp only at h
        have hne : ¬ newRecs.isEmpty := by
          intro hnil
          rw [List.isEmpty_iff.mp hnil] at hl
          simp at hl
        have hl2 : (acc ++ newRecs).getLast? = some last := by
          rw [List.getLast?_append, hl]; rfl
        rw [hl2]
        dsimp only
        rcases hu : updateEstimates tt last with e | upd
        · rw [hu] at h; simp at h
        · rw [hu] at h
          dsimp only at h ⊢
          simp only [Except.ok.injEq] at h
          subst h
          have hdrop : (acc ++ newRecs).dropLast = acc ++ newRecs.dropLast := by
            rw [List.dropLast_append, if_neg hne]
          rw [hdrop, List.append_assoc]
    · rw [if_neg htr] at h ⊢
      simp only [Except.ok.injEq] at h
      subst h
      rfl

/-- Folding the per-issue step over a list of issues, when each issue
succeeds in isolation, concatenates the per-issue record lists. -/
theorem foldlM_processIssue_concat :
    ∀ (issues : List Json),
      (∀ issue ∈ issues, ∃ recs, processIssue [] issue = .ok recs) →
      ∀ acc, List.foldlM processIssue acc issues =
        .ok (acc ++ (issues.map issueRecords).flatten) := by
  intro issues
  induction issues with
  | nil => intro _ acc; simp [List.foldlM_nil, exceptPureEq]
  | cons i is ih =>
    intro h acc
    obtain ⟨recs, hrecs⟩ := h i (List.mem_cons_self i is)
    rw [List.foldlM_cons, processIssue_localize i recs hrecs acc, exceptBindOk,
        ih (fun j hj => h j (List.mem_cons_of_mem i hj)) (acc ++ recs)]
    have hIR : issueRecords i = recs := by
      unfold issueRecords
      rw [hrecs]
      rfl
    rw [List.map_cons, List.flatten_cons, hIR, List.append_assoc]

/-- C3 counterexample: issue `A` has one work log and no timetracking;
issue `B` has a truthy timetracking block but no work logs.  The single
output record belongs to issue `A` (its `issue_key` is `"A"`), yet it
carries issue `B`'s estimate fields — and `B`'s aggregate `timeSpentSeconds`
(10) has even overwritten `A`'s own logged 100 — refuting the claim that
estimate fields of one issue are never written onto a record emitted for a
different issue. -/
theorem c3_counterexample :
    extract_relevant_info (mkPayload
      [mkIssue (.str "A") (.str "1")
         [Json.obj [("id", .str "w1"), ("timeSpentSeconds", .num 100),
                    ("started", .str "t")]]
         (.obj []),
       mkIssue (.str "B") (.str "2") []
         (.obj [("originalEstimateSeconds", .num 60),
                ("remainingEstimateSeconds", .num 30),
                ("timeSpentSeconds", .num 10)])]) =
    .ok [{ user_name := .null, user_email := .null,
           issue_key := .str "A", issue_id := .str "1",
           worklog_id := .str "w1",
           time_spent_seconds := .num 10, worklog_start := .str "t",
           original_estimate_seconds := some (.num 60),
           remaining_estimate_seconds := some (.num 30) }] := rfl

/-- C3 (amended): whenever every issue of the payload can be processed in
isolation (equivalently, every issue whose timetracking block is truthy
has at least one work log of its own), `extract_relevant_info` equals the
concatenation of the independent per-issue extractions, so estimate
fields are applied to the last record of their own issue and are never
written onto a record emitted for a different issue.  Without that
condition the estimates land on the previous issue's last record (see the
counterexample) or raise `NameError`. -/
theorem c3_amended_per_issue_concat (issues : List Json)
    (h : ∀ issue ∈ issues, ∃ recs, processIssue [] issue = .ok recs) :
    extract_relevant_info (mkPayload issues) =
      .ok ((issues.map issueRecords).flatten) := by
  have h0 : extract_relevant_info (mkPayload issues) =
      List.foldlM processIssue [] issues := rfl
  rw [h0, foldlM_processIssue_concat issues h [], List.nil_append]

/-- C3 witness: the amended theorem applied to a concrete two-issue
payload in which each issue carries its own work log. -/
theorem c3_amended_witness :
    extract_relevant_info (mkPayload
      [mkIssue (.str "A") (.str "1")
         [Json.obj [("id", .str "w1"), ("timeSpentSeconds", .num 100),
                    ("started", .str "t")]]
         (.obj [("originalEstimateSeconds", .num 60)]),
       mkIssue (.str "B") (.str "2")
         [Json.obj [("id", .str "w2"), ("timeSpentSeconds", .num 200),
                    ("started", .str "u")]]
         (.obj [])]) =
    .ok (([mkIssue (.str "A") (.str "1")
         [Json.obj [("id", .str "w1"), ("timeSpentSeconds", .num 100),
                    ("started", .str "t")]]
         (.obj [("originalEstimateSeconds", .num 60)]),
       mkIssue (.str "B") (.str "2")
         [Json.obj [("id", .str "w2"), ("timeSpentSeconds", .num 200),
                    ("started", .str "u")]]
         (.obj [])].map issueRecords).flatten) := by
  apply c3_amended_per_issue_concat
  intro issue hmem
  simp only [List.mem_cons, List.not_mem_nil, or_false] at hmem
  rcases hmem with rfl | rfl
  · exact ⟨_, rfl⟩
  · exact ⟨_, rfl⟩

/-- C4: evaluating `extract_relevant_info` at a payload whose FIRST issue
has a truthy timetracking block and an empty work-log list: the Python
local `info` is unbound at the `info.update` call and the function raises
`NameError` (`UnboundLocalError`), contradicting the spec's guarantee
that the extractor never raises for missing optional fields (the claim
explicitly includes issues with an empty work-log list). -/
theorem c4_nameerror_evaluated :
    extract_relevant_info (mkPayload
      [mkIssue (.str "B") (.str "2") []
        (.obj [("originalEstimateSeconds", .num 60)])]) =
    .error .nameError := rfl

/-- C2: on a payload with exactly one (object) issue carrying exactly two
well-shaped work logs and a nonempty timetracking block, extraction
returns exactly two records; the first carries no estimate keys and the
second carries both estimate keys (with the values looked up in the
timetracking block). -/
theorem c2_two_worklogs_only_last_carries_estimates
    (k i w1 w2 : Json) (hw1 : WfWorklog w1) (hw2 : WfWorklog w2)
    (tt : List (String × Json)) (htt : tt ≠ []) :
    ∃ r1 r2 : RecordInfo,
      extract_relevant_info (mkPayload [mkIssue k i [w1, w2] (.obj tt)]) =
        .ok [r1, r2] ∧
      r1.original_estimate_seconds = none ∧
      r1.remaining_estimate_seconds = none ∧
      r2.original_estimate_seconds =
        some ((tt.lookup "originalEstimateSeconds").getD .null) ∧
      r2.remaining_estimate_seconds =
        some ((tt.lookup "remainingEstimateSeconds").getD .null) := by
  obtain ⟨r1, hr1, hr1o, hr1r⟩ := mkWorklogInfo_ok
    [("key", k), ("id", i),
     ("fields", .obj [("worklog", .obj [("worklogs", .arr [w1, w2])]),
                      ("timetracking", .obj tt)])] w1 hw1
  obtain ⟨r2, hr2, hr2o, hr2r⟩ := mkWorklogInfo_ok
    [("key", k), ("id", i),
     ("fields", .obj [("worklog", .obj [("worklogs", .arr [w1, w2])]),
                      ("timetracking", .obj tt)])] w2 hw2
  have hip : issueParts (mkIssue k i [w1, w2] (.obj tt)) =
      .ok ([r1, r2], .obj tt) := by
    have h1 : issueParts (mkIssue k i [w1, w2] (.obj tt)) =
        (List.mapM (mkWorklogInfo (Json.obj
          [("key", k), ("id", i),
           ("fields", .obj [("worklog", .obj [("worklogs", .arr [w1, w2])]),
                            ("timetracking", .obj tt)])])) [w1, w2] >>=
          fun newRecs => pure (newRecs, Json.obj tt)) := rfl
    rw [h1]
    simp only [List.mapM_cons, List.mapM_nil, hr1, hr2, exceptBindOk,
               exceptPureEq]
  have htruthy : (Json.obj tt).truthy = true := by
    cases tt with
    | nil => exact absurd rfl htt
    | cons p ps => rfl
  have hpi : processIssue [] (mkIssue k i [w1, w2] (.obj tt)) =
      .ok [r1, { r2 with
        original_estimate_seconds :=
          some ((tt.lookup "originalEstimateSeconds").getD .null),
        remaining_estimate_seconds :=
          some ((tt.lookup "remainingEstimateSeconds").getD .null),
        time_spent_seconds := (tt.lookup "timeSpentSeconds").getD .null }] := by
    simp only [processIssue, hip]
    rw [if_pos htruthy]
    simp only [List.nil_append]
    have hgl : ([r1, r2] : List RecordInfo).getLast? = some r2 := rfl
    rw [hgl]
    dsimp only
    have hup : updateEstimates (Json.obj tt) r2 = .ok { r2 with
        original_estimate_seconds :=
          some ((tt.lookup "originalEstimateSeconds").getD .null),
        remaining_estimate_seconds :=
          some ((tt.lookup "remainingEstimateSeconds").getD .null),
        time_spent_seconds := (tt.lookup "timeSpentSeconds").getD .null } := rfl
    rw [hup]
    rfl
  refine ⟨r1, { r2 with
      original_estimate_seconds :=
        some ((tt.lookup "originalEstimateSeconds").getD .null),
      remaining_estimate_seconds :=
        some ((tt.lookup "remainingEstimateSeconds").getD .null),
      time_spent_seconds := (tt.lookup "timeSpentSeconds").getD .null },
    ?_, hr1o, hr1r, rfl, rfl⟩
  have h0 : extract_relevant_info (mkPayload [mkIssue k i [w1, w2] (.obj tt)]) =
      List.foldlM processIssue [] [mkIssue k i [w1, w2] (.obj tt)] := rfl
  rw [h0, List.foldlM_cons, hpi, exceptBindOk, List.foldlM_nil, exceptPureEq]

/-- C2 witness: the theorem applied to a fully concrete payload. -/
theorem c2_witness :
    ∃ r1 r2 : RecordInfo,
      extract_relevant_info (mkPayload [mkIssue (.str "K") (.str "7")
        [Json.obj [("id", .str "w1")], Json.obj [("id", .str "w2")]]
        (.obj [("originalEstimateSeconds", .num 3600)])]) = .ok [r1, r2] ∧
      r1.original_estimate_seconds = none ∧
      r1.remaining_estimate_seconds = none ∧
      r2.original_estimate_seconds = some (.num 3600) ∧
      r2.remaining_estimate_seconds = some .null :=
  c2_two_worklogs_only_last_carries_estimates (.str "K") (.str "7")
    (Json.obj [("id", .str "w1")]) (Json.obj [("id", .str "w2")])
    ⟨[("id", .str "w1")], rfl, fun _ ha => nomatch ha⟩
    ⟨[("id", .str "w2")], rfl, fun _ ha => nomatch ha⟩
    [("originalEstimateSeconds", .num 3600)] (fun h => nomatch h)

/-!
## Claim C8 — non-finite durations excluded from aggregation
-/

/-- C8: a record whose duration cell fails finite numeric coercion — in
particular the strings `"NaN"` and `"Infinity"` — is dropped before
grouping, so removing it leaves every per-(user, month) mean and sum
unchanged: it is excluded, not treated as zero. -/
theorem c8_nonfinite_excluded (pre post : List JiraRow) (r : JiraRow)
    (h : (toNumericCoerce r.time_spent_seconds).isFinite = false) :
    calculate_average_time (pre ++ r :: post) =
      calculate_average_time (pre ++ post) ∧
    total_time_per_tester (pre ++ r :: post) =
      total_time_per_tester (pre ++ post) ∧
    (toNumericCoerce (.str "NaN")).isFinite = false ∧
    (toNumericCoerce (.str "Infinity")).isFinite = false := by
  have hkept : keptRows (pre ++ r :: post) = keptRows (pre ++ post) := by
    unfold keptRows
    rcases hc : toNumericCoerce r.time_spent_seconds with q | _ | _ | _
    · rw [hc] at h
      simp [PdNum.isFinite] at h
    · simp [List.filterMap_append, List.filterMap_cons, hc]
    · simp [List.filterMap_append, List.filterMap_cons, hc]
    · simp [List.filterMap_append, List.filterMap_cons, hc]
  refine ⟨?_, ?_, rfl, rfl⟩
  · unfold calculate_average_time
    rw [hkept]
  · unfold total_time_per_tester
    rw [hkept]

/-- C8 witness: dropping a `"NaN"`-duration row from a concrete two-row
frame leaves the aggregation output unchanged. -/
theorem c8_witness :
    calculate_average_time
      ([⟨"alice", "2024-01-05T00:00:00+0000", .num 3600⟩] ++
        ⟨"alice", "2024-01-07T00:00:00+0000", .str "NaN"⟩ ::
        ([] : List JiraRow)) =
      calculate_average_time
        ([⟨"alice", "2024-01-05T00:00:00+0000", .num 3600⟩] ++
          ([] : List JiraRow)) ∧
    total_time_per_tester
      ([⟨"alice", "2024-01-05T00:00:00+0000", .num 3600⟩] ++
        ⟨"alice", "2024-01-07T00:00:00+0000", .str "NaN"⟩ ::
        ([] : List JiraRow)) =
      total_time_per_tester
        ([⟨"alice", "2024-01-05T00:00:00+0000", .num 3600⟩] ++
          ([] : List JiraRow)) ∧
    (toNumericCoerce (.str "NaN")).isFinite = false ∧
    (toNumericCoerce (.str "Infinity")).isFinite = false :=
  c8_nonfinite_excluded
    [⟨"alice", "2024-01-05T00:00:00+0000", .num 3600⟩] []
    ⟨"alice", "2024-01-07T00:00:00+0000", .str "NaN"⟩ (by decide)

/-!
## Claim C9 — cumulative effort series
-/

instance : IsTotal (Int × Int) dateLe :=
  ⟨fun a b => le_total a.1 b.1⟩

instance : IsTrans (Int × Int) dateLe :=
  ⟨fun _ _ _ h1 h2 => le_trans h1 h2⟩

/-- Strict date comparison; antisymmetric (vacuously), which is what the
unique-sorted-list argument needs. -/
def dateLtFst (a b : Int × Int) : Prop :=
  a.1 < b.1

instance : IsAntisymm (Int × Int) dateLtFst :=
  ⟨fun _ _ h1 h2 => absurd (lt_trans h1 h2) (lt_irrefl _)⟩

/-- Length of a running sum. -/
theorem cumsumFrom_length : ∀ (l : List Int) (acc : Int),
    (cumsumFrom acc l).length = l.length
  | [], _ => rfl
  | _ :: xs, acc => by
    rw [cumsumFrom, List.length_cons, List.length_cons,
        cumsumFrom_length xs]

/-- A running sum over nonnegative values is non-decreasing. -/
theorem cumsumFrom_chain (l : List Int) :
    ∀ (acc : Int), (∀ x ∈ l, 0 ≤ x) →
      List.Chain' (· ≤ ·) (cumsumFrom acc l) := by
  induction l with
  | nil => intro acc _; simp [cumsumFrom]
  | cons x xs ih =>
    intro acc h
    rw [cumsumFrom]
    rw [List.chain'_cons']
    constructor
    · intro b hb
      cases xs with
      | nil => simp [cumsumFrom] at hb
      | cons y ys =>
        rw [cumsumFrom] at hb
        simp only [List.head?_cons, Option.mem_def, Option.some.injEq] at hb
        have hy : 0 ≤ y := h y (by simp)
        omega
    · exact ih (acc + x) (fun z hz => h z (List.mem_cons_of_mem x hz))

/-- The chronologically sorted point list is the same for any two
input orders, provided the dates are pairwise distinct. -/
theorem insertionSort_points_perm_eq (pts1 pts2 : List (Int × Int))
    (hperm : pts1.Perm pts2) (hnodup : (pts1.map Prod.fst).Nodup) :
    pts1.insertionSort dateLe = pts2.insertionSort dateLe := by
  have hs1 := List.sorted_insertionSort dateLe pts1
  have hs2 := List.sorted_insertionSort dateLe pts2
  have hp1 := List.perm_insertionSort dateLe pts1
  have hp2 := List.perm_insertionSort dateLe pts2
  have hperm12 : (pts1.insertionSort dateLe).Perm (pts2.insertionSort dateLe) :=
    (hp1.trans hperm).trans hp2.symm
  have hnd1 : ((pts1.insertionSort dateLe).map Prod.fst).Nodup :=
    ((hp1.map Prod.fst).nodup_iff).mpr hnodup
  have hnd2 : ((pts2.insertionSort dateLe).map Prod.fst).Nodup :=
    ((hperm12.map Prod.fst).nodup_iff).mp hnd1
  have hlt : ∀ (l : List (Int × Int)), List.Sorted dateLe l →
      ((l.map Prod.fst).Nodup) → List.Sorted dateLtFst l := by
    intro l hsort hnd
    have hne : List.Pairwise (fun a b : Int × Int => a.1 ≠ b.1) l := by
      rw [List.Nodup, List.pairwise_map] at hnd
      exact hnd
    exact (hsort.and hne).imp
      (fun hab => lt_of_le_of_ne hab.1 hab.2)
  exact List.eq_of_perm_of_sorted hperm12
    (hlt _ hs1 hnd1) (hlt _ hs2 hnd2)

/-- C9 counterexample: two records with the same timestamp and different
efforts.  The two input orders are permutations of each other, both
cumulative series are already chronologically sorted (equal dates), yet
the series differ — the intermediate cumulative value at a tie depends on
the input order, refuting order-independence of the sort-then-cumsum
computation. -/
theorem c9_counterexample :
    ([⟨some 5, some "1h"⟩, ⟨some 5, some "2h"⟩] : List SQIssue).Perm
      [⟨some 5, some "2h"⟩, ⟨some 5, some "1h"⟩] ∧
    cumulative_effort_series [⟨some 5, some "1h"⟩, ⟨some 5, some "2h"⟩] =
      [(5, 60), (5, 180)] ∧
    cumulative_effort_series [⟨some 5, some "2h"⟩, ⟨some 5, some "1h"⟩] =
      [(5, 120), (5, 180)] ∧
    cumulative_effort_series [⟨some 5, some "1h"⟩, ⟨some 5, some "2h"⟩] ≠
      cumulative_effort_series [⟨some 5, some "2h"⟩, ⟨some 5, some "1h"⟩] := by
  refine ⟨List.Perm.swap _ _ _, rfl, rfl, ?_⟩
  intro h
  have h1 : cumulative_effort_series
      [⟨some 5, some "1h"⟩, ⟨some 5, some "2h"⟩] = [(5, 60), (5, 180)] := rfl
  have h2 : cumulative_effort_series
      [⟨some 5, some "2h"⟩, ⟨some 5, some "1h"⟩] = [(5, 120), (5, 180)] := rfl
  rw [h1, h2] at h
  simp at h

/-- C9 (amended): when the filtered records have pairwise-distinct
timestamps and every parsed effort is nonnegative, the cumulative series
is independent of the input order, its dates are chronologically sorted,
and its cumulative values are non-decreasing.  With tied timestamps the
intermediate values depend on the tie order (see the counterexample), and
NumPy's default unstable `argsort` fixes no particular tie order. -/
theorem c9_amended_distinct_dates (l1 l2 : List SQIssue)
    (hperm : l1.Perm l2)
    (hnodup : ((cumulativePoints l1).map Prod.fst).Nodup)
    (hnonneg : ∀ p ∈ cumulativePoints l1, 0 ≤ p.2) :
    cumulative_effort_series l1 = cumulative_effort_series l2 ∧
    List.Sorted (· ≤ ·) ((cumulative_effort_series l1).map Prod.fst) ∧
    List.Chain' (· ≤ ·) ((cumulative_effort_series l1).map Prod.snd) := by
  have hpts : (cumulativePoints l1).Perm (cumulativePoints l2) := by
    unfold cumulativePoints
    exact hperm.filterMap _
  have hsorteq := insertionSort_points_perm_eq _ _ hpts hnodup
  have hzipfst : ∀ (l : List SQIssue),
      (cumulative_effort_series l).map Prod.fst =
        ((cumulativePoints l).insertionSort dateLe).map Prod.fst := by
    intro l
    unfold cumulative_effort_series
    apply List.map_fst_zip
    rw [cumsumFrom_length, List.length_map, List.length_map]
  have hzipsnd : ∀ (l : List SQIssue),
      (cumulative_effort_series l).map Prod.snd =
        cumsumFrom 0 (((cumulativePoints l).insertionSort dateLe).map
          Prod.snd) := by
    intro l
    unfold cumulative_effort_series
    apply List.map_snd_zip
    rw [cumsumFrom_length, List.length_map, List.length_map]
  refine ⟨?_, ?_, ?_⟩
  · unfold cumulative_effort_series
    rw [hsorteq]
  · rw [hzipfst]
    have hs := List.sorted_insertionSort dateLe (cumulativePoints l1)
    exact List.pairwise_map.mpr hs
  · rw [hzipsnd]
    apply cumsumFrom_chain
    intro x hx
    rcases List.mem_map.mp hx with ⟨p, hp, rfl⟩
    exact hnonneg p ((List.perm_insertionSort dateLe _).mem_iff.mp hp)

/-- C9 witness: the amended theorem applied to concrete records with
distinct dates and nonnegative efforts, in two different input orders. -/
theorem c9_amended_witness :
    cumulative_effort_series
        [⟨some 1, some "1h"⟩, ⟨some 2, some "30min"⟩] =
      cumulative_effort_series
        [⟨some 2, some "30min"⟩, ⟨some 1, some "1h"⟩] ∧
    List.Sorted (· ≤ ·) ((cumulative_effort_series
        [⟨some 1, some "1h"⟩, ⟨some 2, some "30min"⟩]).map Prod.fst) ∧
    List.Chain' (· ≤ ·) ((cumulative_effort_series
        [⟨some 1, some "1h"⟩, ⟨some 2, some "30min"⟩]).map Prod.snd) :=
  c9_amended_distinct_dates
    [⟨some 1, some "1h"⟩, ⟨some 2, some "30min"⟩]
    [⟨some 2, some "30min"⟩, ⟨some 1, some "1h"⟩]
    (List.Perm.swap _ _ _) (by decide) (by decide)

/-!
## Claim C1 — window count, order, coverage, contiguity
-/

theorem daysInMonth_pos (y m : Nat) : 1 ≤ daysInMonth y m := by
  unfold daysInMonth
  split
  · split <;> omega
  · split <;> omega

theorem monthIdx_subMonths (d : Date) (k : Nat) :
    monthIdx (subMonths d k) = monthIdx d - k := by
  unfold subMonths monthIdx
  dsimp only
  omega

theorem subMonths_day_one (d : Date) (k : Nat) (hd : d.day = 1) :
    (subMonths d k).day = 1 := by
  unfold subMonths
  dsimp only
  rw [hd]
  have := daysInMonth_pos ((monthIdx d - k) / 12) ((monthIdx d - k) % 12 + 1)
  omega

theorem subMonths_month_bounds (d : Date) (k : Nat) :
    1 ≤ (subMonths d k).month ∧ (subMonths d k).month ≤ 12 := by
  unfold subMonths
  dsimp only
  omega

/-- Stepping back one day from the first of a month and forward one day
again returns to the first of the month (for any month with a positive
linear index). -/
theorem nextDay_prevDay (d : Date) (hd : d.day = 1) (hm1 : 1 ≤ d.month)
    (hm2 : d.month ≤ 12) (hpos : 1 ≤ monthIdx d) :
    nextDay (prevDay d) = firstOfMonth d := by
  obtain ⟨y, mo, da⟩ := d
  simp only at hd hm1 hm2
  subst hd
  unfold monthIdx at hpos
  simp only at hpos
  unfold prevDay
  dsimp only
  rw [if_neg (by omega)]
  by_cases hm : 1 < mo
  · rw [if_pos (by omega)]
    unfold nextDay firstOfMonth
    dsimp only
    rw [if_neg (lt_irrefl _)]
    rw [if_pos (by omega)]
    have hmm : mo - 1 + 1 = mo := by omega
    rw [hmm]
  · have hmo : mo = 1 := by omega
    subst hmo
    rw [if_neg (by omega)]
    unfold nextDay firstOfMonth
    dsimp only
    have hd31 : daysInMonth (y - 1) 12 = 31 := rfl
    rw [hd31]
    rw [if_neg (lt_irrefl _)]
    rw [if_neg (by omega)]
    have hy : y - 1 + 1 = y := by omega
    rw [hy]

/-- For `1 ≤ i`, the end of window `i` is one day before the start of
window `i - 1`, whenever today is the first of its month. -/
theorem windowAt_contiguous (today : Date) (i : Nat)
    (hday : today.day = 1) (hi1 : 1 ≤ i) (hi2 : i ≤ monthIdx today) :
    nextDay (windowAt today i).end_date = (windowAt today (i - 1)).start_date := by
  unfold windowAt
  dsimp only
  rw [if_neg (by omega)]
  have hb := subMonths_month_bounds today (i - 1)
  have hpos : 1 ≤ monthIdx (subMonths today (i - 1)) := by
    rw [monthIdx_subMonths]
    omega
  exact nextDay_prevDay (subMonths today (i - 1))
    (subMonths_day_one today (i - 1) hday) hb.1 hb.2 hpos

theorem pyRangeDownAux_nat (m : Nat) :
    pyRangeDownAux (m + 1) (m : Int) (-1) =
      ((List.range (m + 1)).reverse).map Int.ofNat := by
  induction m with
  | zero => rfl
  | succ n ih =>
    rw [pyRangeDownAux, if_pos (by omega)]
    have hc : ((n + 1 : Nat) : Int) - 1 = (n : Int) := by push_cast; ring
    rw [hc, ih,
        show List.range (n + 1 + 1) = List.range (n + 1) ++ [n + 1] from
          List.range_succ (n + 1),
        List.reverse_append]
    rfl

theorem pyRangeDown_natCast (m : Nat) :
    pyRangeDown (m : Int) (-1) = ((List.range (m + 1)).reverse).map Int.ofNat := by
  unfold pyRangeDown
  have hfuel : ((m : Int) - (-1)).toNat = m + 1 := by omega
  rw [hfuel]
  exact pyRangeDownAux_nat m

/-- For a nonnegative `months_back = m`, the window list is
`windowAt today` mapped over `m, m-1, …, 0`. -/
theorem fetch_windows_nat (m : Nat) (today : Date) :
    fetch_data_for_period_windows (m : Int) today =
      (List.range (m + 1)).reverse.map (fun i => windowAt today i) := by
  unfold fetch_data_for_period_windows
  rw [pyRangeDown_natCast, List.map_map]
  apply List.map_congr_left
  intro i _
  simp [Function.comp, Int.toNat_ofNat]

theorem fetch_windows_length (m : Nat) (today : Date) :
    (fetch_data_for_period_windows (m : Int) today).length = m + 1 := by
  rw [fetch_windows_nat, List.length_map, List.length_reverse,
      List.length_range]

/-- Element `j` (oldest-first position) is the window of iteration
`i = m - j`. -/
theorem fetch_windows_getElem (m : Nat) (today : Date) (j : Nat)
    (hj : j < m + 1) :
    (fetch_data_for_period_windows (m : Int) today)[j]? =
      some (windowAt today (m - j)) := by
  rw [fetch_windows_nat, List.getElem?_map,
      List.getElem?_reverse (by simpa using hj), List.length_range,
      List.getElem?_range (by omega)]
  rfl

theorem dateVal_start_windowAt (t : Date) (k : Nat) :
    dateVal (windowAt t k).start_date = 32 * (monthIdx t - k) + 1 := by
  unfold windowAt dateVal firstOfMonth
  dsimp only
  rw [show monthIdx { subMonths t k with day := 1 } =
        monthIdx (subMonths t k) from rfl,
      monthIdx_subMonths]

theorem monthIdx_start_windowAt (t : Date) (k : Nat) :
    monthIdx (windowAt t k).start_date = monthIdx t - k := by
  unfold windowAt firstOfMonth
  dsimp only
  rw [show monthIdx { subMonths t k with day := 1 } =
        monthIdx (subMonths t k) from rfl,
      monthIdx_subMonths]

/-- C1 counterexample: with `today = 2024-03-15` and `monthsBack = 1` the
two windows are `[2024-02-01, 2024-03-14]` and `[2024-03-01, 2024-03-15]`:
the first window's end plus one day is `2024-03-15`, not the second
window's start, and the second window starts before the first one ends
(a 14-day overlap) — refuting non-overlap/contiguity for arbitrary
current dates.  (The window count, 2, does match `monthsBack + 1`.) -/
theorem c1_counterexample :
    fetch_data_for_period_windows ((1 : Nat) : Int) ⟨2024, 3, 15⟩ =
      [⟨⟨2024, 2, 1⟩, ⟨2024, 3, 14⟩⟩, ⟨⟨2024, 3, 1⟩, ⟨2024, 3, 15⟩⟩] ∧
    nextDay ⟨2024, 3, 14⟩ ≠ Date.mk 2024 3 1 ∧
    dateVal ⟨2024, 3, 1⟩ ≤ dateVal ⟨2024, 3, 14⟩ := by
  refine ⟨by decide, by decide, by decide⟩

/-- C1 (amended): for every `monthsBack = m ≤ monthIdx today`, the window
sequence has exactly `m + 1` elements, is ordered oldest-first (start
dates strictly increasing), covers consecutive calendar months with none
skipped (each window's start month is exactly one month after the
previous window's start month), and — precisely when today is the first
day of its month — consecutive windows are contiguous and non-overlapping:
`window[j].end + 1 day = window[j+1].start`.  For `today.day > 1`
consecutive windows overlap (see the counterexample). -/
theorem c1_amended_window_structure (today : Date) (m : Nat)
    (hm : m ≤ monthIdx today) :
    (fetch_data_for_period_windows (m : Int) today).length = m + 1 ∧
    (∀ (j1 j2 : Nat) (w1 w2 : Window), j1 < j2 →
      (fetch_data_for_period_windows (m : Int) today)[j1]? = some w1 →
      (fetch_data_for_period_windows (m : Int) today)[j2]? = some w2 →
      dateVal w1.start_date < dateVal w2.start_date) ∧
    (∀ (j : Nat) (w w' : Window),
      (fetch_data_for_period_windows (m : Int) today)[j]? = some w →
      (fetch_data_for_period_windows (m : Int) today)[j + 1]? = some w' →
      monthIdx w'.start_date = monthIdx w.start_date + 1) ∧
    (today.day = 1 → ∀ (j : Nat) (w w' : Window),
      (fetch_data_for_period_windows (m : Int) today)[j]? = some w →
      (fetch_data_for_period_windows (m : Int) today)[j + 1]? = some w' →
      nextDay w.end_date = w'.start_date) := by
  have hbound : ∀ (j : Nat) (w : Window),
      (fetch_data_for_period_windows (m : Int) today)[j]? = some w →
      j < m + 1 ∧ w = windowAt today (m - j) := by
    intro j w hj
    have hlt : j < m + 1 := by
      by_contra hge
      rw [List.getElem?_eq_none] at hj
      · exact absurd hj (by simp)
      · rw [fetch_windows_length]; omega
    rw [fetch_windows_getElem m today j hlt] at hj
    exact ⟨hlt, by injection hj with h; exact h.symm⟩
  refine ⟨fetch_windows_length m today, ?_, ?_, ?_⟩
  · intro j1 j2 w1 w2 hlt h1 h2
    obtain ⟨hj1, rfl⟩ := hbound j1 w1 h1
    obtain ⟨hj2, rfl⟩ := hbound j2 w2 h2
    rw [dateVal_start_windowAt, dateVal_start_windowAt]
    omega
  · intro j w w' h1 h2
    obtain ⟨hj1, rfl⟩ := hbound j w h1
    obtain ⟨hj2, rfl⟩ := hbound (j + 1) w' h2
    rw [monthIdx_start_windowAt, monthIdx_start_windowAt]
    omega
  · intro hday j w w' h1 h2
    obtain ⟨hj1, rfl⟩ := hbound j w h1
    obtain ⟨hj2, rfl⟩ := hbound (j + 1) w' h2
    have hstep : m - (j + 1) = (m - j) - 1 := by omega
    rw [hstep]
    exact windowAt_contiguous today (m - j) hday (by omega) (by omega)

/-- C1 witness: the amended theorem at `today = 2024-03-01` (first of the
month) and `monthsBack = 2`, specialized to the first adjacent pair. -/
theorem c1_amended_witness :
    (fetch_data_for_period_windows ((2 : Nat) : Int) ⟨2024, 3, 1⟩).length =
      2 + 1 ∧
    nextDay (windowAt ⟨2024, 3, 1⟩ 2).end_date =
      (windowAt ⟨2024, 3, 1⟩ 1).start_date := by
  have H := c1_amended_window_structure ⟨2024, 3, 1⟩ 2 (by decide)
  refine ⟨H.1, ?_⟩
  have hcontig := H.2.2.2 rfl 0 (windowAt ⟨2024, 3, 1⟩ 2)
    (windowAt ⟨2024, 3, 1⟩ 1) ?_ ?_
  · exact hcontig
  · rw [fetch_windows_getElem 2 ⟨2024, 3, 1⟩ 0 (by omega)]
  · rw [fetch_windows_getElem 2 ⟨2024, 3, 1⟩ 1 (by omega)]
